import Mathlib

/-!
Verification of the fpl-mcp-adk repository against its specification.

The sync-and-serve subsystem (UpstreamClient, Transformer, SnapshotStore,
SyncCoordinator, trigger endpoint) has no implementation in the visible
repository; those definitions are modelled from the spec, as their doc
comments state. The frontend definitions (Input, App, api.js) are shallow
embeddings of the JavaScript source in frontend/src.
-/

namespace FplSync

/-- Modelled from the spec: a typed attribute value of a normalized Entity
(the spec's "mapping of attribute name → typed value"; coercions turn
numeric strings into numbers and nullable fields into explicit absence). -/
inductive Value where
  | str : String → Value
  | num : Int → Value
  | null : Value
deriving DecidableEq, Repr

/-- Modelled from the spec: a RawRecord is an opaque JSON document returned
by the upstream API for one entity category, modelled as a flat mapping of
field name to value. -/
def RawRecord : Type := List (String × Value)

instance : DecidableEq RawRecord :=
  inferInstanceAs (DecidableEq (List (String × Value)))

instance : Repr RawRecord :=
  inferInstanceAs (Repr (List (String × Value)))

/-- Modelled from the spec: an Entity is a normalized record with a stable
identifier, a category tag, and a mapping of attribute name → typed value. -/
structure Entity where
  id : String
  category : String
  attrs : List (String × Value)
deriving DecidableEq, Repr

/-- Modelled from the spec: a coercion declared in the per-category
field-mapping table (numeric strings → numbers, etc.). -/
inductive Coercion where
  | asString : Coercion
  | asNumber : Coercion
deriving DecidableEq, Repr

/-- Modelled from the spec: applying a declared coercion to an upstream
value; `none` is a type mismatch (a TransformError for the record). -/
def coerce : Coercion → Value → Option Value
  | Coercion.asString, Value.str s => some (Value.str s)
  | Coercion.asString, _ => none
  | Coercion.asNumber, Value.num n => some (Value.num n)
  | Coercion.asNumber, Value.str s => (s.toInt?).map Value.num
  | Coercion.asNumber, Value.null => none

/-- Modelled from the spec: the statically declared field-mapping table for
one category — the id field plus enumerated
(upstreamField, internalField, coercion) triples. -/
structure CategorySchema where
  idField : String
  mappings : List (String × String × Coercion)
deriving DecidableEq, Repr

/-- Look up an upstream field in a raw record. -/
def lookupField : RawRecord → String → Option Value
  | [], _ => none
  | p :: tl, f => if p.1 = f then some p.2 else lookupField tl f

/-- Modelled from the spec: normalizing one RawRecord into an Entity.
Returns `none` (a TransformError: record skipped and counted) when the
record is missing a required field or a declared coercion fails. -/
def normalizeRecord (schema : CategorySchema) (category : String)
    (r : RawRecord) : Option Entity := do
  let idv ← lookupField r schema.idField
  let idStr ←
    match idv with
    | Value.str s => some s
    | Value.num n => some (toString n)
    | Value.null => none
  let attrs ← schema.mappings.mapM (fun m => do
    let v ← lookupField r m.1
    let cv ← coerce m.2.2 v
    pure (m.2.1, cv))
  pure ⟨idStr, category, attrs⟩

/-- Modelled from the spec: `Transformer.normalize` maps a sequence of
RawRecords to the sequence of successfully normalized Entities, skipping
and counting each offending record rather than aborting the category.
Returns the entities and the skipped count. -/
def normalize (schema : CategorySchema) (category : String)
    (rs : List RawRecord) : List Entity × Nat :=
  rs.foldr
    (fun r acc =>
      match normalizeRecord schema category r with
      | some e => (e :: acc.1, acc.2)
      | none => (acc.1, acc.2 + 1))
    ([], 0)

theorem normalize_fst (schema : CategorySchema) (category : String)
    (rs : List RawRecord) :
    (normalize schema category rs).1
      = rs.filterMap (normalizeRecord schema category) := by
  induction rs with
  | nil => rfl
  | cons r tl ih =>
    simp only [normalize, List.foldr_cons, List.filterMap_cons]
    cases h : normalizeRecord schema category r with
    | none => simpa [normalize, h] using ih
    | some e => simpa [normalize, h] using ih

theorem normalize_snd (schema : CategorySchema) (category : String)
    (rs : List RawRecord) :
    (normalize schema category rs).2
      = (rs.filter
          (fun r => (normalizeRecord schema category r).isNone)).length := by
  induction rs with
  | nil => rfl
  | cons r tl ih =>
    simp only [normalize, List.foldr_cons, List.filter_cons]
    cases h : normalizeRecord schema category r with
    | none => simpa [normalize, h] using ih
    | some e => simpa [normalize, h] using ih

theorem normalize_length (schema : CategorySchema) (category : String)
    (rs : List RawRecord) :
    (normalize schema category rs).1.length
        + (normalize schema category rs).2 = rs.length := by
  induction rs with
  | nil => rfl
  | cons r tl ih =>
    simp only [normalize, List.foldr_cons] at *
    cases h : normalizeRecord schema category r with
    | none => simp [h, ← ih]; omega
    | some e => simp [h, ← ih]; omega

/-- Modelled from the spec: a Snapshot is an immutable, versioned collection
of all Entities produced by one sync cycle, tagged with a monotonically
increasing version number and a creation timestamp. -/
structure Snapshot where
  version : Nat
  createdAt : Nat
  entities : List Entity
deriving DecidableEq, Repr

/-- Modelled from the spec: a WriteHandle names the version allocated by
`beginWrite`; entities written under it are invisible until committed. -/
structure WriteHandle where
  version : Nat
deriving DecidableEq, Repr

/-- Modelled from the spec: the SnapshotStore — durable versioned storage
plus the single PublishPointer indicating which version is live, and the
next version number to allocate. The store is missing from the repository;
only deployment scripts reference it. -/
structure Store where
  versions : List Snapshot
  publishPointer : Option Nat
  nextVersion : Nat
deriving DecidableEq, Repr

/-- Well-formedness of a store: the published version and all stored
versions are below the allocation counter, so a freshly allocated handle
never collides with them. -/
def Store.wfB (s : Store) : Bool :=
  (match s.publishPointer with
   | none => true
   | some v => v < s.nextVersion) &&
  s.versions.all (fun sn => sn.version < s.nextVersion)

/-- Modelled from the spec: `beginWrite` allocates the next version number
and starts an empty in-progress snapshot for it. -/
def beginWrite (s : Store) (now : Nat) : Store × WriteHandle :=
  (⟨⟨s.nextVersion, now, []⟩ :: s.versions, s.publishPointer, s.nextVersion + 1⟩,
   ⟨s.nextVersion⟩)

/-- The underlying list operation of `write`: append a batch of entities to
every snapshot carrying the handle's version. -/
def writeV (l : List Snapshot) (hv : Nat) (es : List Entity) : List Snapshot :=
  l.map (fun sn =>
    if sn.version = hv then { sn with entities := sn.entities ++ es } else sn)

/-- Modelled from the spec: `write(handle, entities)` appends entities to
the in-progress snapshot; callable once per category to build the snapshot
incrementally. It never touches PublishPointer. -/
def write (s : Store) (h : WriteHandle) (es : List Entity) : Store :=
  { s with versions := writeV s.versions h.version es }

/-- Modelled from the spec: `commit(handle)` atomically advances
PublishPointer to the new version; visibility is gated solely by
PublishPointer, so no other field changes. -/
def commit (s : Store) (h : WriteHandle) : Store :=
  { s with publishPointer := some h.version }

/-- Find the stored snapshot with a given version number. -/
def lookupSnap : List Snapshot → Nat → Option Snapshot
  | [], _ => none
  | sn :: tl, v => if sn.version = v then some sn else lookupSnap tl v

/-- Modelled from the spec: `readVersion(versionId)` reads the entities of
a pinned historical snapshot. -/
def readVersion (s : Store) (v : Nat) : List Entity :=
  match lookupSnap s.versions v with
  | some sn => sn.entities
  | none => []

/-- Modelled from the spec: `readLatest` always reads from the version
referenced by PublishPointer at call time. -/
def readLatest (s : Store) : List Entity :=
  match s.publishPointer with
  | none => []
  | some v => readVersion s v

theorem lookupSnap_writeV_ne (l : List Snapshot) (hv v : Nat)
    (es : List Entity) (h : v ≠ hv) :
    lookupSnap (writeV l hv es) v = lookupSnap l v := by
  induction l with
  | nil => rfl
  | cons sn tl ih =>
    by_cases hsn : sn.version = hv
    · have h2 : hv ≠ v := Ne.symm h
      simp only [writeV] at ih
      simp [writeV, lookupSnap, hsn, h2, ih]
    · simp only [writeV] at ih
      by_cases hv2 : sn.version = v
      · simp [writeV, lookupSnap, hsn, hv2, h]
      · simp [writeV, lookupSnap, hsn, hv2, h, ih]

theorem lookupSnap_writeV_head (sn : Snapshot) (tl : List Snapshot)
    (es : List Entity) (h : sn.version = hv) :
    writeV (sn :: tl) hv es
      = { sn with entities := sn.entities ++ es } :: writeV tl hv es := by
  simp [writeV, h]

/-- The versions of snapshots are untouched by `writeV`. -/
theorem writeV_version_map (l : List Snapshot) (hv : Nat) (es : List Entity) :
    (writeV l hv es).map (fun sn => sn.version)
      = l.map (fun sn => sn.version) := by
  induction l with
  | nil => rfl
  | cons sn tl ih =>
    simp only [writeV, List.map_cons] at *
    by_cases hsn : sn.version = hv <;> simp [hsn, ih]

/-- Writing a sequence of per-category entity batches under one handle
(the coordinator calls `write` once per category). -/
def writeAll (h : WriteHandle) (batches : List (List Entity)) (s : Store) : Store :=
  batches.foldl (fun st es => write st h es) s

theorem writeAll_publishPointer (h : WriteHandle) (bs : List (List Entity)) :
    ∀ s : Store, (writeAll h bs s).publishPointer = s.publishPointer := by
  induction bs with
  | nil => intro s; rfl
  | cons b tl ih =>
    intro s
    simpa [writeAll, write] using ih (write s h b)

theorem writeAll_nextVersion (h : WriteHandle) (bs : List (List Entity)) :
    ∀ s : Store, (writeAll h bs s).nextVersion = s.nextVersion := by
  induction bs with
  | nil => intro s; rfl
  | cons b tl ih =>
    intro s
    simpa [writeAll, write] using ih (write s h b)

theorem writeAll_lookup_ne (h : WriteHandle) (bs : List (List Entity))
    (v : Nat) (hv : v ≠ h.version) :
    ∀ s : Store,
      lookupSnap (writeAll h bs s).versions v = lookupSnap s.versions v := by
  induction bs with
  | nil => intro s; rfl
  | cons b tl ih =>
    intro s
    have step : lookupSnap (write s h b).versions v = lookupSnap s.versions v := by
      simpa [write] using lookupSnap_writeV_ne s.versions h.version v b hv
    calc lookupSnap (writeAll h (b :: tl) s).versions v
        = lookupSnap (writeAll h tl (write s h b)).versions v := rfl
      _ = lookupSnap (write s h b).versions v := ih (write s h b)
      _ = lookupSnap s.versions v := step

theorem writeAll_lookup_self (hv : Nat) (bs : List (List Entity)) :
    ∀ (e0 : List Entity) (tl : List Snapshot) (pp : Option Nat)
      (nv now : Nat),
      lookupSnap
          (writeAll ⟨hv⟩ bs ⟨⟨hv, now, e0⟩ :: tl, pp, nv⟩).versions hv
        = some ⟨hv, now, e0 ++ bs.flatten⟩ := by
  induction bs with
  | nil =>
    intro e0 tl pp nv now
    simp [writeAll, lookupSnap]
  | cons b rest ih =>
    intro e0 tl pp nv now
    have hw : write ⟨⟨hv, now, e0⟩ :: tl, pp, nv⟩ ⟨hv⟩ b
        = ⟨⟨hv, now, e0 ++ b⟩ :: writeV tl hv b, pp, nv⟩ := by
      simp [write, writeV]
    calc lookupSnap
          (writeAll ⟨hv⟩ (b :: rest) ⟨⟨hv, now, e0⟩ :: tl, pp, nv⟩).versions hv
        = lookupSnap
            (writeAll ⟨hv⟩ rest
              ⟨⟨hv, now, e0 ++ b⟩ :: writeV tl hv b, pp, nv⟩).versions hv := by
          simp [writeAll, hw]
      _ = some ⟨hv, now, (e0 ++ b) ++ rest.flatten⟩ :=
          ih (e0 ++ b) (writeV tl hv b) pp nv now
      _ = some ⟨hv, now, e0 ++ (b :: rest).flatten⟩ := by
          simp [List.flatten]

theorem writeAll_version_map (h : WriteHandle) (bs : List (List Entity)) :
    ∀ s : Store,
      (writeAll h bs s).versions.map (fun sn => sn.version)
        = s.versions.map (fun sn => sn.version) := by
  induction bs with
  | nil => intro s; rfl
  | cons b tl ih =>
    intro s
    calc (writeAll h (b :: tl) s).versions.map (fun sn => sn.version)
        = (writeAll h tl (write s h b)).versions.map (fun sn => sn.version) := rfl
      _ = (write s h b).versions.map (fun sn => sn.version) := ih (write s h b)
      _ = s.versions.map (fun sn => sn.version) := by
          simpa [write] using writeV_version_map s.versions h.version b

/-- Modelled from the spec: the SyncCoordinator state machine
`Idle → Running → (Committing | Failed) → Idle`. -/
inductive CoordState where
  | Idle : CoordState
  | Running : CoordState
  | Committing : CoordState
  | Failed : CoordState
deriving DecidableEq, Repr

/-- Modelled from the spec: the result of a trigger request — either the
cycle starts, or the request is rejected with SyncAlreadyInProgress. -/
inductive TriggerResult where
  | started : TriggerResult
  | syncAlreadyInProgress : TriggerResult
deriving DecidableEq, Repr

/-- Modelled from the spec: the single `requestSync` gate behind both the
timer and the endpoint. A trigger in `Idle` starts a cycle; in any other
state it is rejected with SyncAlreadyInProgress, neither queued nor run
concurrently (the state is left untouched). -/
def requestSync : CoordState → CoordState × TriggerResult
  | CoordState.Idle => (CoordState.Running, TriggerResult.started)
  | st => (st, TriggerResult.syncAlreadyInProgress)

/-- Modelled from the spec: a set of concurrent trigger calls, serialized
by the atomic gate — each call observes the state left by the previous one
and no cycle completes in between. Returns the final state and the per-call
results. -/
def processTriggers : CoordState → Nat → CoordState × List TriggerResult
  | st, 0 => (st, [])
  | st, n + 1 =>
    let r := requestSync st
    let rest := processTriggers r.1 n
    (rest.1, r.2 :: rest.2)

/-- Modelled from the spec: the outcome of one SyncRun. -/
inductive RunOutcome where
  | success : RunOutcome
  | failure : RunOutcome
deriving DecidableEq, Repr

/-- Modelled from the spec: per-category counts of entities processed and
records skipped, surfaced in SyncRun metadata. -/
structure CategoryStats where
  category : String
  processed : Nat
  skipped : Nat
deriving DecidableEq, Repr

/-- Modelled from the spec: transient metadata describing one execution of
the sync pipeline — start time, end time, outcome, and per-category
counts. -/
structure SyncRun where
  startTime : Nat
  endTime : Nat
  outcome : RunOutcome
  stats : List CategoryStats
deriving DecidableEq, Repr

/-- Modelled from the spec: the transport-level result of fetching one
category from the upstream API. -/
inductive FetchOutcome where
  | ok : List RawRecord → FetchOutcome
  | unavailable : FetchOutcome
  | malformed : FetchOutcome
deriving DecidableEq, Repr

/-- Modelled from the spec: one category's input to a sync cycle — its
name, its field-mapping schema, and the outcome of its upstream fetch. -/
structure CategoryInput where
  category : String
  schema : CategorySchema
  fetched : FetchOutcome
deriving DecidableEq, Repr

/-- Modelled from the spec: the entities and skipped count one category
contributes to the cycle: a successful fetch is normalized; a failed fetch
(retries exhausted or malformed payload) contributes nothing, and the
cycle continues with the other categories. -/
def categoryResult (cd : CategoryInput) : List Entity × Nat :=
  match cd.fetched with
  | FetchOutcome.ok rs => normalize cd.schema cd.category rs
  | FetchOutcome.unavailable => ([], 0)
  | FetchOutcome.malformed => ([], 0)

/-- Modelled from the spec: one sync cycle over the store — beginWrite,
one write per category, then commit only if at least one category
succeeded with a non-empty entity set; an all-categories-empty result is
treated as a failed cycle and the partial version is left orphaned,
PublishPointer untouched. -/
def runCycle (s : Store) (now : Nat) (cats : List CategoryInput) :
    Store × SyncRun :=
  let p := beginWrite s now
  let results := cats.map (fun cd => (cd.category, categoryResult cd))
  let s2 := writeAll p.2 (results.map (fun r => r.2.1)) p.1
  let stats := results.map
    (fun r => CategoryStats.mk r.1 r.2.1.length r.2.2)
  if results.any (fun r => !r.2.1.isEmpty) then
    (commit s2 p.2, SyncRun.mk now now RunOutcome.success stats)
  else
    (s2, SyncRun.mk now now RunOutcome.failure stats)

/-- The observable result of one coordinator invocation. -/
structure StepResult where
  finalState : CoordState
  store : Store
  run : Option SyncRun
  trace : List CoordState
deriving DecidableEq, Repr

/-- Modelled from the spec: one full coordinator invocation on a trigger —
the gate, then fetch/transform/write/commit, ending back in `Idle`. The
trace records the states traversed (`Running`, then `Committing` on
success or `Failed` on failure, then `Idle`). A rejected trigger leaves
everything unchanged. -/
def syncStep (st : CoordState) (s : Store) (now : Nat)
    (cats : List CategoryInput) : StepResult :=
  match requestSync st with
  | (st2, TriggerResult.syncAlreadyInProgress) => StepResult.mk st2 s none []
  | (_, TriggerResult.started) =>
    let R := runCycle s now cats
    match R.2.outcome with
    | RunOutcome.success =>
      StepResult.mk CoordState.Idle R.1 (some R.2)
        [CoordState.Running, CoordState.Committing, CoordState.Idle]
    | RunOutcome.failure =>
      StepResult.mk CoordState.Idle R.1 (some R.2)
        [CoordState.Running, CoordState.Failed, CoordState.Idle]

/-- Modelled from the spec: the HTTP response of the trigger endpoint. -/
structure TriggerResponse where
  status : Nat
  runId : Option Nat
  error : Option String
deriving DecidableEq, Repr

/-- Modelled from the spec: `POST /api/v1/sync` — requires the shared
secret in `X-API-Key`; absence or mismatch yields 401 Unauthorized and no
SyncRun is created; with a matching key, 202 Accepted with a SyncRun
identifier if a cycle was started, or 409 Conflict with
SyncAlreadyInProgress if one was already running. Returns the response,
the coordinator state after the gate, and the id of the SyncRun created,
if any. -/
def handleSyncTrigger (secret : String) (apiKey : Option String)
    (st : CoordState) (nextRunId : Nat) :
    TriggerResponse × CoordState × Option Nat :=
  match apiKey with
  | none => (TriggerResponse.mk 401 none (some "Unauthorized"), st, none)
  | some k =>
    if k = secret then
      match requestSync st with
      | (st2, TriggerResult.started) =>
        (TriggerResponse.mk 202 (some nextRunId) none, st2, some nextRunId)
      | (st2, TriggerResult.syncAlreadyInProgress) =>
        (TriggerResponse.mk 409 none (some "SyncAlreadyInProgress"), st2, none)
    else (TriggerResponse.mk 401 none (some "Unauthorized"), st, none)

/-- Modelled from the spec: UpstreamClient retry policy — 3 attempts. -/
def maxAttempts : Nat := 3

/-- Modelled from the spec: exponential backoff base of 1 second. -/
def backoffBaseMs : Nat := 1000

/-- Modelled from the spec: the backoff cap. -/
def backoffCapMs : Nat := 4000

/-- Modelled from the spec: the capped exponential backoff delay before
retry number `i`. -/
def backoffDelay (i : Nat) : Nat := min (backoffBaseMs * 2 ^ i) backoffCapMs

/-- Modelled from the spec: the bounded-retry loop of
`UpstreamClient.fetchCategory`. `attempt i` is the transport result of the
i-th attempt; the fuel is the number of attempts still allowed. Returns
the final outcome, the number of attempts made, and the list of backoff
delays waited between attempts. A malformed payload is returned
immediately (never retried); only `unavailable` is retried. -/
def fetchAttempts (attempt : Nat → FetchOutcome) : Nat → Nat → FetchOutcome × Nat × List Nat
  | _, 0 => (FetchOutcome.unavailable, 0, [])
  | i, n + 1 =>
    match attempt i with
    | FetchOutcome.ok rs => (FetchOutcome.ok rs, 1, [])
    | FetchOutcome.malformed => (FetchOutcome.malformed, 1, [])
    | FetchOutcome.unavailable =>
      if n = 0 then (FetchOutcome.unavailable, 1, [])
      else
        let r := fetchAttempts attempt (i + 1) n
        (r.1, r.2.1 + 1, backoffDelay i :: r.2.2)

/-- Modelled from the spec: `fetchCategory` runs the retry loop from the
first attempt with the configured attempt budget. -/
def fetchCategory (attempt : Nat → FetchOutcome) : FetchOutcome × Nat × List Nat :=
  fetchAttempts attempt 0 maxAttempts

theorem wfB_pointer_lt {s : Store} (h : s.wfB = true) {v : Nat}
    (hp : s.publishPointer = some v) : v < s.nextVersion := by
  unfold Store.wfB at h
  rw [hp] at h
  simp only [Bool.and_eq_true, decide_eq_true_eq] at h
  exact h.1

theorem wfB_versions_lt {s : Store} (h : s.wfB = true) :
    ∀ sn ∈ s.versions, sn.version < s.nextVersion := by
  unfold Store.wfB at h
  simp only [Bool.and_eq_true, List.all_eq_true, decide_eq_true_eq] at h
  exact h.2

theorem writeAll_after_begin_lookup_old (s : Store) (now : Nat)
    (batches : List (List Entity)) (v : Nat) (hv : v ≠ s.nextVersion) :
    lookupSnap
        (writeAll ⟨s.nextVersion⟩ batches (beginWrite s now).1).versions v
      = lookupSnap s.versions v := by
  rw [writeAll_lookup_ne ⟨s.nextVersion⟩ batches v hv]
  simp [beginWrite, lookupSnap, Ne.symm hv]

theorem writeAll_after_begin_lookup_self (s : Store) (now : Nat)
    (batches : List (List Entity)) :
    lookupSnap
        (writeAll ⟨s.nextVersion⟩ batches (beginWrite s now).1).versions
        s.nextVersion
      = some ⟨s.nextVersion, now, batches.flatten⟩ := by
  simpa [beginWrite] using
    writeAll_lookup_self s.nextVersion batches [] s.versions
      s.publishPointer (s.nextVersion + 1) now

theorem writeAll_after_begin_pointer (s : Store) (now : Nat)
    (batches : List (List Entity)) :
    (writeAll ⟨s.nextVersion⟩ batches (beginWrite s now).1).publishPointer
      = s.publishPointer := by
  rw [writeAll_publishPointer]
  rfl

theorem writeAll_after_begin_next (s : Store) (now : Nat)
    (batches : List (List Entity)) :
    (writeAll ⟨s.nextVersion⟩ batches (beginWrite s now).1).nextVersion
      = s.nextVersion + 1 := by
  rw [writeAll_nextVersion]
  rfl

theorem writeAll_after_begin_readLatest (s : Store) (now : Nat)
    (batches : List (List Entity)) (hwf : s.wfB = true) :
    readLatest (writeAll ⟨s.nextVersion⟩ batches (beginWrite s now).1)
      = readLatest s := by
  have hpp := writeAll_after_begin_pointer s now batches
  cases hp : s.publishPointer with
  | none => simp [readLatest, hpp, hp]
  | some v =>
    have hlt := wfB_pointer_lt hwf hp
    have hne : v ≠ s.nextVersion := Nat.ne_of_lt hlt
    simp [readLatest, readVersion, hpp, hp,
      writeAll_after_begin_lookup_old s now batches v hne]

theorem readLatest_commit_after_begin (s : Store) (now : Nat)
    (batches : List (List Entity)) :
    readLatest
        (commit (writeAll ⟨s.nextVersion⟩ batches (beginWrite s now).1)
          ⟨s.nextVersion⟩)
      = batches.flatten := by
  simp [readLatest, commit, readVersion,
    writeAll_after_begin_lookup_self s now batches]

/-- C1: only fully-written snapshots are observable. Starting from any
well-formed store, writing any sequence of entity batches under a fresh
`beginWrite` handle leaves `readLatest` unchanged (uncommitted entities are
invisible, and a crash before commit orphans the partial version without
ever exposing it, since PublishPointer is untouched); `commit` advances
PublishPointer to the new version in a single atomic state change, after
which a reader sees exactly the full set of written entities — never a
half-updated generation. -/
theorem snapshot_isolation (s : Store) (now : Nat)
    (batches : List (List Entity)) (hwf : s.wfB = true) :
    readLatest (writeAll (beginWrite s now).2 batches (beginWrite s now).1)
        = readLatest s ∧
    (writeAll (beginWrite s now).2 batches (beginWrite s now).1).publishPointer
        = s.publishPointer ∧
    (commit (writeAll (beginWrite s now).2 batches (beginWrite s now).1)
        (beginWrite s now).2).publishPointer
        = some (beginWrite s now).2.version ∧
    readLatest (commit (writeAll (beginWrite s now).2 batches (beginWrite s now).1)
        (beginWrite s now).2)
      = batches.flatten := by
  refine ⟨?_, ?_, ?_, ?_⟩
  · exact writeAll_after_begin_readLatest s now batches hwf
  · exact writeAll_after_begin_pointer s now batches
  · rfl
  · exact readLatest_commit_after_begin s now batches

/-- Witness for C1 at a concrete store and batch list. -/
theorem snapshot_isolation_witness :
    (Store.mk [Snapshot.mk 0 0 []] (some 0) 1).wfB = true ∧
    readLatest
        (writeAll (beginWrite (Store.mk [Snapshot.mk 0 0 []] (some 0) 1) 7).2
          [[Entity.mk "p1" "players" []]]
          (beginWrite (Store.mk [Snapshot.mk 0 0 []] (some 0) 1) 7).1)
      = readLatest (Store.mk [Snapshot.mk 0 0 []] (some 0) 1) := by
  refine ⟨by decide, ?_⟩
  exact (snapshot_isolation (Store.mk [Snapshot.mk 0 0 []] (some 0) 1) 7
    [[Entity.mk "p1" "players" []]] (by decide)).1

/-- The per-category entity batches a cycle writes. -/
def cycleBatches (cats : List CategoryInput) : List (List Entity) :=
  cats.map (fun cd => (categoryResult cd).1)

/-- The full entity set of one cycle — the union of the categories. -/
def cycleEntities (cats : List CategoryInput) : List Entity :=
  (cycleBatches cats).flatten

/-- Whether at least one category succeeded with a non-empty entity set. -/
def cycleNonEmpty (cats : List CategoryInput) : Bool :=
  cats.any (fun cd => !(categoryResult cd).1.isEmpty)

/-- The per-category stats reported in the SyncRun of one cycle. -/
def cycleStats (cats : List CategoryInput) : List CategoryStats :=
  cats.map (fun cd =>
    CategoryStats.mk cd.category (categoryResult cd).1.length (categoryResult cd).2)

theorem runCycle_eq (s : Store) (now : Nat) (cats : List CategoryInput) :
    runCycle s now cats =
      if cycleNonEmpty cats then
        (commit (writeAll ⟨s.nextVersion⟩ (cycleBatches cats) (beginWrite s now).1)
            ⟨s.nextVersion⟩,
         SyncRun.mk now now RunOutcome.success (cycleStats cats))
      else
        (writeAll ⟨s.nextVersion⟩ (cycleBatches cats) (beginWrite s now).1,
         SyncRun.mk now now RunOutcome.failure (cycleStats cats)) := by
  unfold runCycle cycleNonEmpty cycleBatches cycleStats
  simp [List.map_map, List.any_map, Function.comp_def, beginWrite]

theorem runCycle_success_char (s : Store) (now : Nat)
    (cats : List CategoryInput) (h : cycleNonEmpty cats = true) :
    (runCycle s now cats).1.publishPointer = some s.nextVersion ∧
    (runCycle s now cats).2.outcome = RunOutcome.success ∧
    (runCycle s now cats).1.nextVersion = s.nextVersion + 1 ∧
    lookupSnap (runCycle s now cats).1.versions s.nextVersion
        = some ⟨s.nextVersion, now, cycleEntities cats⟩ ∧
    readLatest (runCycle s now cats).1 = cycleEntities cats ∧
    (runCycle s now cats).2.stats = cycleStats cats := by
  rw [runCycle_eq, if_pos h]
  refine ⟨rfl, rfl, ?_, ?_, ?_, rfl⟩
  · show (writeAll _ _ _).nextVersion = _
    exact writeAll_after_begin_next s now (cycleBatches cats)
  · show lookupSnap (writeAll _ _ _).versions _ = _
    exact writeAll_after_begin_lookup_self s now (cycleBatches cats)
  · show readLatest (commit (writeAll _ _ _) _) = _
    exact readLatest_commit_after_begin s now (cycleBatches cats)

theorem runCycle_failure_char (s : Store) (now : Nat)
    (cats : List CategoryInput) (h : cycleNonEmpty cats = false) :
    (runCycle s now cats).1.publishPointer = s.publishPointer ∧
    (runCycle s now cats).2.outcome = RunOutcome.failure ∧
    (runCycle s now cats).1.nextVersion = s.nextVersion + 1 ∧
    (s.wfB = true → readLatest (runCycle s now cats).1 = readLatest s) ∧
    (runCycle s now cats).2.stats = cycleStats cats := by
  rw [runCycle_eq, if_neg (by simp [h])]
  refine ⟨?_, rfl, ?_, ?_, rfl⟩
  · exact writeAll_after_begin_pointer s now (cycleBatches cats)
  · exact writeAll_after_begin_next s now (cycleBatches cats)
  · intro hwf
    exact writeAll_after_begin_readLatest s now (cycleBatches cats) hwf

theorem all_lt_of_version_map {l l2 : List Snapshot} (m : Nat)
    (h : l2.map (fun sn => sn.version) = l.map (fun sn => sn.version))
    (hall : ∀ sn ∈ l, sn.version < m) : ∀ sn ∈ l2, sn.version < m := by
  intro sn hsn
  have hmem : sn.version ∈ l2.map (fun sn => sn.version) :=
    List.mem_map_of_mem _ hsn
  rw [h] at hmem
  obtain ⟨sn2, hsn2, hv⟩ := List.mem_map.mp hmem
  rw [← hv]
  exact hall sn2 hsn2

theorem wfB_iff (s : Store) :
    s.wfB = true ↔
      (∀ v, s.publishPointer = some v → v < s.nextVersion) ∧
      (∀ sn ∈ s.versions, sn.version < s.nextVersion) := by
  unfold Store.wfB
  cases hp : s.publishPointer with
  | none => simp [List.all_eq_true]
  | some v => simp [List.all_eq_true]

theorem writeAll_after_begin_versions_lt (s : Store) (now : Nat)
    (batches : List (List Entity)) (hwf : s.wfB = true) :
    ∀ sn ∈ (writeAll ⟨s.nextVersion⟩ batches (beginWrite s now).1).versions,
      sn.version < s.nextVersion + 1 := by
  apply all_lt_of_version_map (s.nextVersion + 1)
      (writeAll_version_map ⟨s.nextVersion⟩ batches (beginWrite s now).1)
  intro sn hsn
  rcases List.mem_cons.mp hsn with h1 | h2
  · rw [h1]
    exact Nat.lt_succ_self s.nextVersion
  · exact Nat.lt_succ_of_lt (wfB_versions_lt hwf sn h2)

theorem runCycle_wfB (s : Store) (now : Nat) (cats : List CategoryInput)
    (hwf : s.wfB = true) : (runCycle s now cats).1.wfB = true := by
  rw [runCycle_eq]
  by_cases h : cycleNonEmpty cats = true
  · rw [if_pos h]
    rw [wfB_iff]
    constructor
    · intro v hv
      have hn : (commit (writeAll ⟨s.nextVersion⟩ (cycleBatches cats)
          (beginWrite s now).1) ⟨s.nextVersion⟩).nextVersion
          = s.nextVersion + 1 :=
        writeAll_after_begin_next s now (cycleBatches cats)
      rw [hn]
      have : v = s.nextVersion := by
        have : some v = some s.nextVersion := hv.symm.trans rfl
        exact Option.some.inj this
      omega
    · intro sn hsn
      have hn : (commit (writeAll ⟨s.nextVersion⟩ (cycleBatches cats)
          (beginWrite s now).1) ⟨s.nextVersion⟩).nextVersion
          = s.nextVersion + 1 :=
        writeAll_after_begin_next s now (cycleBatches cats)
      rw [hn]
      exact writeAll_after_begin_versions_lt s now (cycleBatches cats) hwf sn hsn
  · rw [if_neg h]
    rw [wfB_iff]
    constructor
    · intro v hv
      rw [writeAll_after_begin_pointer s now (cycleBatches cats)] at hv
      rw [writeAll_after_begin_next s now (cycleBatches cats)]
      exact Nat.lt_succ_of_lt (wfB_pointer_lt hwf hv)
    · intro sn hsn
      rw [writeAll_after_begin_next s now (cycleBatches cats)]
      exact writeAll_after_begin_versions_lt s now (cycleBatches cats) hwf sn hsn

theorem processTriggers_running (n : Nat) :
    processTriggers CoordState.Running n
      = (CoordState.Running,
         List.replicate n TriggerResult.syncAlreadyInProgress) := by
  induction n with
  | zero => rfl
  | succ m ih =>
    simp [processTriggers, requestSync, ih, List.replicate_succ]

/-- C2: the mutual-exclusion gate. Every trigger arriving while the
coordinator is `Running` is rejected with SyncAlreadyInProgress and the
state is left `Running` (nothing is queued or run concurrently); among any
set of n ≥ 1 concurrent trigger calls serialized through the gate from
`Idle`, exactly one starts a cycle and all the others receive
SyncAlreadyInProgress. -/
theorem trigger_mutual_exclusion (n : Nat) (hn : 0 < n) :
    processTriggers CoordState.Running n
        = (CoordState.Running,
           List.replicate n TriggerResult.syncAlreadyInProgress) ∧
    (processTriggers CoordState.Idle n).2.count TriggerResult.started = 1 ∧
    (processTriggers CoordState.Idle n).2.count
        TriggerResult.syncAlreadyInProgress = n - 1 := by
  refine ⟨processTriggers_running n, ?_, ?_⟩
  all_goals
    cases n with
    | zero => omega
    | succ m =>
      simp [processTriggers, requestSync, processTriggers_running m,
        List.count_cons, List.count_replicate]

/-- Witness for C2 at n = 3. -/
theorem trigger_mutual_exclusion_witness :
    (0 < 3) ∧
    (processTriggers CoordState.Idle 3).2.count TriggerResult.started = 1 := by
  exact ⟨by decide, (trigger_mutual_exclusion 3 (by decide)).2.1⟩

theorem cycleNonEmpty_of_all_empty (cats : List CategoryInput)
    (hall : ∀ cd ∈ cats, cd.fetched = FetchOutcome.ok []) :
    cycleNonEmpty cats = false := by
  unfold cycleNonEmpty
  rw [List.any_eq_false]
  intro cd hcd
  simp [categoryResult, hall cd hcd, normalize]

/-- C3: every failed cycle preserves the published snapshot. For every
sync cycle whose outcome is `Failed` — whatever the cause: retries
exhausted for every category, malformed payloads, every record rejected
by the Transformer, or the upstream returning 0 records for all
categories (which the first conjunct shows is always such a failed
cycle) — the triggered coordinator invocation passes through `Failed` and
returns to `Idle`, PublishPointer is unchanged and the previously
published snapshot remains live. -/
theorem failed_cycle_preserves_published (s : Store) (now : Nat)
    (cats : List CategoryInput) (hwf : s.wfB = true) :
    ((∀ cd ∈ cats, cd.fetched = FetchOutcome.ok []) →
        (runCycle s now cats).2.outcome = RunOutcome.failure) ∧
    ((runCycle s now cats).2.outcome = RunOutcome.failure →
      (syncStep CoordState.Idle s now cats).finalState = CoordState.Idle ∧
      (syncStep CoordState.Idle s now cats).store.publishPointer
          = s.publishPointer ∧
      readLatest (syncStep CoordState.Idle s now cats).store = readLatest s ∧
      (∃ run, (syncStep CoordState.Idle s now cats).run = some run ∧
          run.outcome = RunOutcome.failure) ∧
      CoordState.Failed ∈ (syncStep CoordState.Idle s now cats).trace) := by
  constructor
  · intro hall
    exact (runCycle_failure_char s now cats
      (cycleNonEmpty_of_all_empty cats hall)).2.1
  · intro hfailed
    have hfalse : cycleNonEmpty cats = false := by
      by_cases hc : cycleNonEmpty cats = true
      · rw [(runCycle_success_char s now cats hc).2.1] at hfailed
        simp at hfailed
      · simpa using hc
    have hchar := runCycle_failure_char s now cats hfalse
    have hstep : syncStep CoordState.Idle s now cats
        = StepResult.mk CoordState.Idle (runCycle s now cats).1
            (some (runCycle s now cats).2)
            [CoordState.Running, CoordState.Failed, CoordState.Idle] := by
      unfold syncStep
      simp [requestSync, hchar.2.1]
    rw [hstep]
    refine ⟨rfl, hchar.1, hchar.2.2.2.1 hwf,
      ⟨(runCycle s now cats).2, rfl, hchar.2.1⟩, ?_⟩
    simp

/-- Witness for C3: a cycle whose only category exhausted its retries
(an `unavailable` fetch, not the 0-records case) fails and leaves the
published pointer untouched. -/
theorem failed_cycle_preserves_published_witness :
    ((Store.mk [Snapshot.mk 0 3 [Entity.mk "t1" "teams" []]] (some 0) 1).wfB
        = true ∧
     (runCycle
        (Store.mk [Snapshot.mk 0 3 [Entity.mk "t1" "teams" []]] (some 0) 1) 9
        [CategoryInput.mk "players" (CategorySchema.mk "id" [])
          FetchOutcome.unavailable]).2.outcome = RunOutcome.failure) ∧
    (syncStep CoordState.Idle
        (Store.mk [Snapshot.mk 0 3 [Entity.mk "t1" "teams" []]] (some 0) 1) 9
        [CategoryInput.mk "players" (CategorySchema.mk "id" [])
          FetchOutcome.unavailable]).store.publishPointer = some 0 := by
  refine ⟨⟨by decide, by decide⟩, ?_⟩
  exact ((failed_cycle_preserves_published
    (Store.mk [Snapshot.mk 0 3 [Entity.mk "t1" "teams" []]] (some 0) 1) 9
    [CategoryInput.mk "players" (CategorySchema.mk "id" [])
      FetchOutcome.unavailable]
    (by decide)).2 (by decide)).2.1

/-- The number of malformed records in a category's raw data — those the
Transformer rejects with a TransformError. -/
def malformedCount (schema : CategorySchema) (c : String)
    (rs : List RawRecord) : Nat :=
  (rs.filter (fun r => (normalizeRecord schema c r).isNone)).length

/-- C4: skip-and-count transformation. For every category and input
sequence of N RawRecords of which K are malformed (missing required field
or type mismatch), `normalize` yields exactly N − K entities and a skipped
count of K; running a cycle over that category produces a Snapshot with
exactly N − K entities and a SyncRun reporting `skipped: K` — the
malformed minority never aborts the category. -/
theorem transformer_skips_and_counts (schema : CategorySchema) (c : String)
    (rs : List RawRecord) (s : Store) (now : Nat) (_hwf : s.wfB = true)
    (hsome : ∃ r ∈ rs, (normalizeRecord schema c r).isSome = true) :
    (normalize schema c rs).2 = malformedCount schema c rs ∧
    (normalize schema c rs).1.length
        = rs.length - malformedCount schema c rs ∧
    (readLatest (runCycle s now
        [CategoryInput.mk c schema (FetchOutcome.ok rs)]).1).length
        = rs.length - malformedCount schema c rs ∧
    (runCycle s now [CategoryInput.mk c schema (FetchOutcome.ok rs)]).2.stats
        = [CategoryStats.mk c (rs.length - malformedCount schema c rs)
            (malformedCount schema c rs)] := by
  have h2 : (normalize schema c rs).2 = malformedCount schema c rs :=
    normalize_snd schema c rs
  have hlen : (normalize schema c rs).1.length
      = rs.length - malformedCount schema c rs := by
    have := normalize_length schema c rs
    omega
  obtain ⟨r, hr, hs⟩ := hsome
  obtain ⟨e, he⟩ := Option.isSome_iff_exists.mp hs
  have hmem : e ∈ (normalize schema c rs).1 := by
    rw [normalize_fst]
    exact List.mem_filterMap.mpr ⟨r, hr, he⟩
  have hne : cycleNonEmpty [CategoryInput.mk c schema (FetchOutcome.ok rs)]
      = true := by
    simp only [cycleNonEmpty, List.any_cons, List.any_nil, Bool.or_false,
      categoryResult]
    simp [List.isEmpty_iff, List.ne_nil_of_mem hmem]
  have hchar := runCycle_success_char s now
    [CategoryInput.mk c schema (FetchOutcome.ok rs)] hne
  refine ⟨h2, hlen, ?_, ?_⟩
  · rw [hchar.2.2.2.2.1]
    simp only [cycleEntities, cycleBatches, List.map_cons, List.map_nil,
      List.flatten, categoryResult, List.append_nil]
    exact hlen
  · rw [hchar.2.2.2.2.2]
    simp only [cycleStats, List.map_cons, List.map_nil, categoryResult]
    rw [h2, hlen]

/-- Witness for C4: two records, one well-formed and one missing the id
field. -/
theorem transformer_skips_and_counts_witness :
    (∃ r ∈ ([[("id", Value.str "a")], []] : List RawRecord),
      (normalizeRecord (CategorySchema.mk "id" []) "players" r).isSome = true) ∧
    (runCycle (Store.mk [] none 0) 4
        [CategoryInput.mk "players" (CategorySchema.mk "id" [])
          (FetchOutcome.ok [[("id", Value.str "a")], []])]).2.stats
      = [CategoryStats.mk "players" 1 1] := by
  refine ⟨by decide, ?_⟩
  have h := transformer_skips_and_counts (CategorySchema.mk "id" []) "players"
    [[("id", Value.str "a")], []] (Store.mk [] none 0) 4 (by decide) (by decide)
  have hK : malformedCount (CategorySchema.mk "id" []) "players"
      [[("id", Value.str "a")], []] = 1 := by decide
  have := h.2.2.2
  rw [hK] at this
  exact this

theorem fetchAttempts_le (attempt : Nat → FetchOutcome) :
    ∀ (n i : Nat), (fetchAttempts attempt i n).2.1 ≤ n := by
  intro n
  induction n with
  | zero => intro i; simp [fetchAttempts]
  | succ m ih =>
    intro i
    cases h : attempt i with
    | ok rs => simp [fetchAttempts, h]
    | malformed => simp [fetchAttempts, h]
    | unavailable =>
      by_cases hm : m = 0
      · simp [fetchAttempts, h, hm]
      · have hrec := ih (i + 1)
        simp [fetchAttempts, h, hm]
        omega

theorem fetchAttempts_pos (attempt : Nat → FetchOutcome) (n i : Nat)
    (hn : 0 < n) : 1 ≤ (fetchAttempts attempt i n).2.1 := by
  cases n with
  | zero => omega
  | succ m =>
    cases h : attempt i with
    | ok rs => simp [fetchAttempts, h]
    | malformed => simp [fetchAttempts, h]
    | unavailable =>
      by_cases hm : m = 0
      · simp [fetchAttempts, h, hm]
      · simp [fetchAttempts, h, hm]

theorem fetchAttempts_delays (attempt : Nat → FetchOutcome) :
    ∀ (n i : Nat),
      (fetchAttempts attempt i n).2.2
        = (List.range ((fetchAttempts attempt i n).2.1 - 1)).map
            (fun j => backoffDelay (i + j)) := by
  intro n
  induction n with
  | zero => intro i; simp [fetchAttempts]
  | succ m ih =>
    intro i
    cases h : attempt i with
    | ok rs => simp [fetchAttempts, h]
    | malformed => simp [fetchAttempts, h]
    | unavailable =>
      by_cases hm : m = 0
      · simp [fetchAttempts, h, hm]
      · have hpos : 1 ≤ (fetchAttempts attempt (i + 1) m).2.1 :=
          fetchAttempts_pos attempt m (i + 1) (Nat.pos_of_ne_zero hm)
        have ihh := ih (i + 1)
        simp only [fetchAttempts, h, hm, if_false]
        rw [ihh]
        obtain ⟨u, hu⟩ : ∃ u, (fetchAttempts attempt (i + 1) m).2.1
            = u + 1 := ⟨_, (Nat.succ_pred_eq_of_pos hpos).symm⟩
        rw [hu]
        simp only [Nat.add_sub_cancel]
        rw [List.range_succ_eq_map, List.map_cons, List.map_map]
        have hfun : ((fun j => backoffDelay (i + j)) ∘ Nat.succ)
            = (fun j => backoffDelay (i + 1 + j)) := by
          funext j
          simp only [Function.comp_apply]
          congr 1
          omega
        rw [hfun]
        simp

/-- C5: the UpstreamClient retry policy. Every `fetchCategory` makes at
most `maxAttempts` attempts; the delays it waits between attempts follow
the capped exponential backoff schedule; a malformed first response is
returned immediately — one attempt, no retry, no backoff; and a category
whose fetch is malformed contributes nothing while the cycle continues
with the other categories, leaving the published result and the cycle
outcome exactly as if only the other categories had been processed. -/
theorem upstream_retry_policy (attempt : Nat → FetchOutcome) (s : Store)
    (now : Nat) (cd : CategoryInput) (cats : List CategoryInput)
    (hwf : s.wfB = true) (hmal : cd.fetched = FetchOutcome.malformed) :
    (fetchCategory attempt).2.1 ≤ maxAttempts ∧
    (fetchCategory attempt).2.2
        = (List.range ((fetchCategory attempt).2.1 - 1)).map backoffDelay ∧
    (attempt 0 = FetchOutcome.malformed →
        fetchCategory attempt = (FetchOutcome.malformed, 1, [])) ∧
    readLatest (runCycle s now (cd :: cats)).1
        = readLatest (runCycle s now cats).1 ∧
    (runCycle s now (cd :: cats)).2.outcome
        = (runCycle s now cats).2.outcome := by
  have hbatch : categoryResult cd = ([], 0) := by
    simp [categoryResult, hmal]
  have hne : cycleNonEmpty (cd :: cats) = cycleNonEmpty cats := by
    simp [cycleNonEmpty, hbatch]
  have hent : cycleEntities (cd :: cats) = cycleEntities cats := by
    simp [cycleEntities, cycleBatches, hbatch]
  refine ⟨fetchAttempts_le attempt maxAttempts 0, ?_, ?_, ?_, ?_⟩
  · simpa [fetchCategory] using fetchAttempts_delays attempt maxAttempts 0
  · intro h0
    simp [fetchCategory, maxAttempts, fetchAttempts, h0]
  · by_cases hcase : cycleNonEmpty cats = true
    · have h1 := runCycle_success_char s now (cd :: cats) (hne.trans hcase)
      have h2 := runCycle_success_char s now cats hcase
      rw [h1.2.2.2.2.1, h2.2.2.2.2.1, hent]
    · have hf : cycleNonEmpty cats = false := by
        simpa using hcase
      have h1 := runCycle_failure_char s now (cd :: cats) (hne.trans hf)
      have h2 := runCycle_failure_char s now cats hf
      rw [h1.2.2.2.1 hwf, h2.2.2.2.1 hwf]
  · by_cases hcase : cycleNonEmpty cats = true
    · have h1 := runCycle_success_char s now (cd :: cats) (hne.trans hcase)
      have h2 := runCycle_success_char s now cats hcase
      rw [h1.2.1, h2.2.1]
    · have hf : cycleNonEmpty cats = false := by
        simpa using hcase
      have h1 := runCycle_failure_char s now (cd :: cats) (hne.trans hf)
      have h2 := runCycle_failure_char s now cats hf
      rw [h1.2.1, h2.2.1]

/-- Witness for C5: an upstream that answers malformed on the first
attempt, and a malformed category alongside an empty category list. -/
theorem upstream_retry_policy_witness :
    ((fun _ => FetchOutcome.malformed) 0 = FetchOutcome.malformed) ∧
    fetchCategory (fun _ => FetchOutcome.malformed)
      = (FetchOutcome.malformed, 1, []) := by
  refine ⟨rfl, ?_⟩
  exact (upstream_retry_policy (fun _ => FetchOutcome.malformed)
    (Store.mk [] none 0) 0
    (CategoryInput.mk "players" (CategorySchema.mk "id" [])
      FetchOutcome.malformed)
    [] (by decide) rfl).2.2.1 rfl

/-- C6: idempotence. Running a sync cycle twice over identical upstream
data (the same category inputs) from a well-formed store publishes two
snapshots with identical entity content, differing only in version id
(consecutive version numbers) and creation timestamp; both cycles succeed
and the second cycle's published content equals the first's. -/
theorem sync_idempotent (s : Store) (now1 now2 : Nat)
    (cats : List CategoryInput) (_hwf : s.wfB = true)
    (hne : cycleNonEmpty cats = true) :
    readLatest (runCycle (runCycle s now1 cats).1 now2 cats).1
        = readLatest (runCycle s now1 cats).1 ∧
    (runCycle s now1 cats).1.publishPointer = some s.nextVersion ∧
    (runCycle (runCycle s now1 cats).1 now2 cats).1.publishPointer
        = some (s.nextVersion + 1) ∧
    lookupSnap (runCycle s now1 cats).1.versions s.nextVersion
        = some (Snapshot.mk s.nextVersion now1 (cycleEntities cats)) ∧
    lookupSnap (runCycle (runCycle s now1 cats).1 now2 cats).1.versions
        (s.nextVersion + 1)
        = some (Snapshot.mk (s.nextVersion + 1) now2 (cycleEntities cats)) ∧
    (runCycle s now1 cats).2.outcome = RunOutcome.success ∧
    (runCycle (runCycle s now1 cats).1 now2 cats).2.outcome
        = RunOutcome.success := by
  have h1 := runCycle_success_char s now1 cats hne
  have h2 := runCycle_success_char (runCycle s now1 cats).1 now2 cats hne
  have hnext : (runCycle s now1 cats).1.nextVersion = s.nextVersion + 1 :=
    h1.2.2.1
  refine ⟨?_, h1.1, ?_, h1.2.2.2.1, ?_, h1.2.1, h2.2.1⟩
  · rw [h1.2.2.2.2.1, h2.2.2.2.2.1]
  · rw [h2.1, hnext]
  · rw [← hnext]
    exact h2.2.2.2.1

/-- Witness for C6 at a concrete store and upstream data. -/
theorem sync_idempotent_witness :
    ((Store.mk [] none 0).wfB = true ∧
     cycleNonEmpty [CategoryInput.mk "players" (CategorySchema.mk "id" [])
        (FetchOutcome.ok [[("id", Value.str "a")]])] = true) ∧
    readLatest (runCycle (runCycle (Store.mk [] none 0) 1
        [CategoryInput.mk "players" (CategorySchema.mk "id" [])
          (FetchOutcome.ok [[("id", Value.str "a")]])]).1 2
        [CategoryInput.mk "players" (CategorySchema.mk "id" [])
          (FetchOutcome.ok [[("id", Value.str "a")]])]).1
      = readLatest (runCycle (Store.mk [] none 0) 1
        [CategoryInput.mk "players" (CategorySchema.mk "id" [])
          (FetchOutcome.ok [[("id", Value.str "a")]])]).1 := by
  refine ⟨⟨by decide, by decide⟩, ?_⟩
  exact (sync_idempotent (Store.mk [] none 0) 1 2
    [CategoryInput.mk "players" (CategorySchema.mk "id" [])
      (FetchOutcome.ok [[("id", Value.str "a")]])]
    (by decide) (by decide)).1

/-- C7: trigger endpoint authentication and gating. For every POST to
`/api/v1/sync`: an absent or mismatched `X-API-Key` yields 401
Unauthorized with no SyncRun created and the coordinator untouched; a
matching key with no cycle running yields 202 Accepted carrying the new
SyncRun identifier; a matching key while a cycle is `Running` yields 409
Conflict with SyncAlreadyInProgress and no SyncRun created. -/
theorem sync_endpoint_auth (secret : String) (key : Option String)
    (st : CoordState) (rid : Nat) :
    ((key = none ∨ key ≠ some secret) →
        (handleSyncTrigger secret key st rid).1.status = 401 ∧
        (handleSyncTrigger secret key st rid).2.2 = none ∧
        (handleSyncTrigger secret key st rid).2.1 = st) ∧
    (key = some secret → st = CoordState.Idle →
        (handleSyncTrigger secret key st rid).1
            = TriggerResponse.mk 202 (some rid) none ∧
        (handleSyncTrigger secret key st rid).2.2 = some rid) ∧
    (key = some secret → st = CoordState.Running →
        (handleSyncTrigger secret key st rid).1
            = TriggerResponse.mk 409 none (some "SyncAlreadyInProgress") ∧
        (handleSyncTrigger secret key st rid).2.2 = none) := by
  refine ⟨?_, ?_, ?_⟩
  · intro hbad
    cases key with
    | none => simp [handleSyncTrigger]
    | some k =>
      have hne : k ≠ secret := by
        rcases hbad with h1 | h2
        · exact absurd h1 (by simp)
        · intro hc
          exact h2 (by rw [hc])
      simp [handleSyncTrigger, hne]
  · intro hkey hst
    rw [hkey, hst]
    simp [handleSyncTrigger, requestSync]
  · intro hkey hst
    rw [hkey, hst]
    simp [handleSyncTrigger, requestSync]

/-- Witness for C7: wrong key is rejected with 401 and no run is
created. -/
theorem sync_endpoint_auth_witness :
    ((some "wrong" : Option String) = none ∨
      (some "wrong" : Option String) ≠ some "secret") ∧
    (handleSyncTrigger "secret" (some "wrong") CoordState.Idle 5).1.status
        = 401 ∧
    (handleSyncTrigger "secret" (some "wrong") CoordState.Idle 5).2.2
        = none := by
  have h := (sync_endpoint_auth "secret" (some "wrong") CoordState.Idle 5).1
    (Or.inr (by decide))
  exact ⟨Or.inr (by decide), h.1, h.2.1⟩

end FplSync

namespace Frontend

/-- A chat message in the App component's `messages` state
(frontend/src/App.jsx): a sender tag and a text. -/
structure Msg where
  sender : String
  text : String
deriving DecidableEq, Repr

/-- State of the Input component (frontend/src/components/Input.jsx): the
controlled `text` value. -/
structure InputState where
  text : String
deriving DecidableEq, Repr

/-- JavaScript `String.prototype.trim`: strips leading and trailing
whitespace from the character sequence. -/
def jsTrim (s : String) : String :=
  String.mk
    (((s.data.dropWhile Char.isWhitespace).reverse.dropWhile
        Char.isWhitespace).reverse)

/-- `Input.handleSubmit` (frontend/src/components/Input.jsx): after
`e.preventDefault()`, the guard `if (text.trim() && !disabled)` calls
`onSendMessage(text)` and resets the text to the empty string; JavaScript
string truthiness makes `text.trim()` truthy exactly when the trimmed
string is non-empty. Returns the message passed to `onSendMessage` (if
any) and the state after the event. -/
def handleSubmit (disabled : Bool) (st : InputState) :
    Option String × InputState :=
  if jsTrim st.text != "" && !disabled then (some st.text, InputState.mk "")
  else (none, st)

/-- State of the App component (frontend/src/App.jsx): `messages`,
`sessionId`, `userId` (`null` modelled as `none`), `isLoading`. -/
structure AppState where
  messages : List Msg
  sessionId : Option String
  userId : Option String
  isLoading : Bool
deriving DecidableEq, Repr

/-- JavaScript falsiness of a nullable string: `!x` is true for `null`
and for the empty string. -/
def jsFalsy : Option String → Bool
  | none => true
  | some s => s == ""

/-- The outcome of the awaited `postMessage` call inside
`App.handleSendMessage`: a resolved response carrying `data.response`, or
a rejection. -/
inductive PostOutcome where
  | ok : String → PostOutcome
  | error : PostOutcome
deriving DecidableEq, Repr

/-- The fixed agent message appended in the catch branch of
`App.handleSendMessage`. -/
def errorReply : String :=
  "Sorry, I encountered an error. Please check the console for details."

/-- `App.handleSendMessage` (frontend/src/App.jsx): the guard
`if (!sessionId || !userId || isLoading) return;` (JavaScript falsiness),
then `setIsLoading(true)`, append the user message, await `postMessage`;
on resolution append the agent response, on rejection swallow it and
append the fixed error reply; the finally block resets `isLoading` to
false. Total function: a rejected promise is never propagated. -/
def handleSendMessage (post : PostOutcome) (st : AppState)
    (messageText : String) : AppState :=
  if jsFalsy st.sessionId || jsFalsy st.userId || st.isLoading then st
  else
    let withUser : AppState :=
      { st with isLoading := true,
                messages := st.messages ++ [Msg.mk "user" messageText] }
    let withReply : AppState :=
      match post with
      | PostOutcome.ok resp =>
        { withUser with
            messages := withUser.messages ++ [Msg.mk "agent" resp] }
      | PostOutcome.error =>
        { withUser with
            messages := withUser.messages ++ [Msg.mk "agent" errorReply] }
    { withReply with isLoading := false }

/-- A fetch response as consumed by createSession/postMessage
(frontend/src/services/api.js): the `ok` flag and the JSON-parsed body. -/
structure HttpResponse (α : Type) where
  ok : Bool
  json : α
deriving DecidableEq, Repr

/-- `createSession` (frontend/src/services/api.js lines 5-18): throws
`Error('Failed to create session')` when `response.ok` is false, else
resolves with `response.json()`. -/
def createSession {α : Type} (resp : HttpResponse α) : Except String α :=
  if resp.ok then Except.ok resp.json
  else Except.error "Failed to create session"

/-- `postMessage` (frontend/src/services/api.js lines 20-33): throws
`Error('Failed to send message')` when `response.ok` is false, else
resolves with `response.json()`. -/
def postMessage {α : Type} (resp : HttpResponse α) : Except String α :=
  if resp.ok then Except.ok resp.json
  else Except.error "Failed to send message"

/-- C8: the Input submit guard. On a submit event, `onSendMessage(text)`
is called exactly when the trimmed text is non-empty and the component is
not disabled, and then the text state is reset to the empty string; for
whitespace-only text or while disabled, nothing is sent and the text state
is unchanged. -/
theorem input_submit_guard (disabled : Bool) (st : InputState) :
    ((handleSubmit disabled st).1 = some st.text ↔
        (jsTrim st.text ≠ "" ∧ disabled = false)) ∧
    ((jsTrim st.text ≠ "" ∧ disabled = false) →
        handleSubmit disabled st = (some st.text, InputState.mk "")) ∧
    ((jsTrim st.text = "" ∨ disabled = true) →
        handleSubmit disabled st = (none, st)) := by
  refine ⟨?_, ?_, ?_⟩
  · constructor
    · intro h
      by_cases hc : jsTrim st.text != "" && !disabled
      · constructor
        · simpa using (Bool.and_eq_true_iff.mp hc).1
        · simpa using (Bool.and_eq_true_iff.mp hc).2
      · rw [handleSubmit, if_neg hc] at h
        simp at h
    · intro ⟨h1, h2⟩
      rw [handleSubmit, if_pos (by simp [h1, h2])]
  · intro ⟨h1, h2⟩
    rw [handleSubmit, if_pos (by simp [h1, h2])]
  · intro h
    rcases h with h1 | h1
    · simp [handleSubmit, h1]
    · simp [handleSubmit, h1]

/-- Witness for C8: a non-empty message on an enabled input is sent and
the field is cleared. -/
theorem input_submit_guard_witness :
    (jsTrim "hi " ≠ "" ∧ false = false) ∧
    handleSubmit false (InputState.mk "hi ")
      = (some "hi ", InputState.mk "") := by
  refine ⟨⟨by decide, rfl⟩, ?_⟩
  exact (input_submit_guard false (InputState.mk "hi ")).2.1
    ⟨by decide, rfl⟩

/-- C9 counterexample: the guard in `App.handleSendMessage` is JavaScript
falsiness, `!sessionId`, not a null check. With sessionId the empty string
— non-null — userId non-null, and isLoading false, the call returns with
no message appended, contradicting the claim that every such invocation
appends the user message. -/
theorem app_send_message_counterexample :
    (AppState.mk [] (some "") (some "u") false).sessionId ≠ none ∧
    (AppState.mk [] (some "") (some "u") false).userId ≠ none ∧
    (AppState.mk [] (some "") (some "u") false).isLoading = false ∧
    handleSendMessage (PostOutcome.ok "r")
        (AppState.mk [] (some "") (some "u") false) "hi"
      = AppState.mk [] (some "") (some "u") false := by
  refine ⟨by simp, by simp, rfl, by decide⟩

/-- C9 (amended): for every invocation of `App.handleSendMessage` with
truthy (non-null and non-empty) sessionId and userId while isLoading is
false, the user message is appended to messages; a `postMessage` rejection
is not propagated — the fixed agent error message is appended instead —
and in every completion path isLoading ends false. If sessionId or userId
is falsy or isLoading is true, the call returns the state unchanged. -/
theorem app_send_message_guarded (post : PostOutcome) (st : AppState)
    (messageText : String) :
    ((jsFalsy st.sessionId || jsFalsy st.userId || st.isLoading) = true →
        handleSendMessage post st messageText = st) ∧
    ((jsFalsy st.sessionId = false ∧ jsFalsy st.userId = false ∧
        st.isLoading = false) →
      (handleSendMessage post st messageText).isLoading = false ∧
      (∀ r, post = PostOutcome.ok r →
        (handleSendMessage post st messageText).messages
          = st.messages ++ [Msg.mk "user" messageText, Msg.mk "agent" r]) ∧
      (post = PostOutcome.error →
        (handleSendMessage post st messageText).messages
          = st.messages
              ++ [Msg.mk "user" messageText, Msg.mk "agent" errorReply])) := by
  constructor
  · intro h
    rw [handleSendMessage, if_pos h]
  · intro ⟨h1, h2, h3⟩
    refine ⟨?_, ?_, ?_⟩
    · cases post <;> simp [handleSendMessage, h1, h2, h3]
    · intro r hr
      rw [hr]
      simp [handleSendMessage, h1, h2, h3]
    · intro hr
      rw [hr]
      simp [handleSendMessage, h1, h2, h3]

/-- Witness for C9 (amended): a rejected `postMessage` appends the fixed
error reply and leaves isLoading false. -/
theorem app_send_message_guarded_witness :
    (jsFalsy (AppState.mk [] (some "s") (some "u") false).sessionId = false ∧
     jsFalsy (AppState.mk [] (some "s") (some "u") false).userId = false ∧
     (AppState.mk [] (some "s") (some "u") false).isLoading = false) ∧
    (handleSendMessage PostOutcome.error
        (AppState.mk [] (some "s") (some "u") false) "hi").messages
      = [Msg.mk "user" "hi", Msg.mk "agent" errorReply] := by
  refine ⟨⟨by decide, by decide, rfl⟩, ?_⟩
  have h := (app_send_message_guarded PostOutcome.error
    (AppState.mk [] (some "s") (some "u") false) "hi").2
    ⟨by decide, by decide, rfl⟩
  simpa using h.2.2 rfl

/-- C10: createSession and postMessage throw exactly when the response is
not ok, and otherwise resolve with the JSON-parsed response body,
unmodified. -/
theorem api_error_propagation {α : Type} (resp : HttpResponse α) :
    ((∃ e, createSession resp = Except.error e) ↔ resp.ok = false) ∧
    (resp.ok = true → createSession resp = Except.ok resp.json) ∧
    ((∃ e, postMessage resp = Except.error e) ↔ resp.ok = false) ∧
    (resp.ok = true → postMessage resp = Except.ok resp.json) := by
  cases h : resp.ok <;>
    simp [createSession, postMessage, h]

/-- Witness for C10 at a concrete ok response with a Nat body. -/
theorem api_error_propagation_witness :
    (HttpResponse.mk true (42 : Nat)).ok = true ∧
    createSession (HttpResponse.mk true (42 : Nat)) = Except.ok 42 := by
  exact ⟨rfl, (api_error_propagation (HttpResponse.mk true (42 : Nat))).2.1 rfl⟩

end Frontend
